import Mathlib

/-! A shallow embedding of TaskManager.cpp.

The program keeps a `std::vector<TaskBase*>` of heap objects, each owned by the
vector alone (every `addTask` in `main` receives a fresh `new` object), so the
vector is embedded as a list of task values.

`std::cout` is embedded as the text written to it: every member function that
prints returns the characters it writes, `std::endl` being the newline.

`int` is a 32-bit two's-complement integer and `size_t` a 64-bit unsigned one;
both are embedded in `Int` / `Nat` with the conversions written out.
An operation that would index the vector out of range, or overflow an `int`,
has no defined result and returns `none`.

Of `main` one pass of the loop is embedded; the values `std::cin` delivers to
its reads are given to it as a record.
-/

namespace TaskManager

set_option maxRecDepth 100000

/-! ## Machine integers -/

/-- The conversion `static_cast<int>(n)` of a `size_t` value: the low 32 bits,
read as a two's-complement number. -/
def castToInt (n : Nat) : Int :=
  if n % 2 ^ 32 < 2 ^ 31 then ((n % 2 ^ 32 : Nat) : Int)
  else ((n % 2 ^ 32 : Nat) : Int) - 2 ^ 32

/-- The conversion of an `int` to `size_t`, as done when an `int` is passed to
`std::vector::operator[]`. -/
def castToSize (i : Int) : Nat :=
  (i % 2 ^ 64).toNat

/-- The text written by `std::endl`. -/
def endl : String := "\n"

/-! ## The task classes -/

/-- The data members of `class TaskBase`. -/
structure TaskBase where
  description : String
  dueDate : String
  isCompleted : Bool
deriving DecidableEq, Repr

/-- The constructor `TaskBase(desc, date)`. -/
def TaskBase.new (desc date : String) : TaskBase :=
  { description := desc, dueDate := date, isCompleted := false }

/-- The member `TaskBase::markAsCompleted`. -/
def TaskBase.markAsCompleted (b : TaskBase) : TaskBase :=
  { b with isCompleted := true }

/-- The member `TaskBase::isTaskCompleted`. -/
def TaskBase.isTaskCompleted (b : TaskBase) : Bool :=
  b.isCompleted

/-- An object of `class Task : public TaskBase`. -/
structure Task where
  base : TaskBase
deriving DecidableEq, Repr

/-- An object of `class RecurringTask : public TaskBase`. -/
structure RecurringTask where
  base : TaskBase
  frequency : Int
deriving DecidableEq, Repr

/-- The constructor `Task(desc, date)`. -/
def Task.new (desc date : String) : Task :=
  { base := TaskBase.new desc date }

/-- The constructor `RecurringTask(desc, freq)`. -/
def RecurringTask.new (desc : String) (freq : Int) : RecurringTask :=
  { base := TaskBase.new desc "", frequency := freq }

/-- The override `Task::displayTask`: the text it writes. -/
def Task.displayTask (t : Task) : String :=
  let out := "Description: " ++ t.base.description ++ ", Due Date: " ++ t.base.dueDate
  if t.base.isCompleted then
    out ++ " (Completed)" ++ endl
  else
    out ++ " (Not Completed)" ++ endl

/-- The override `RecurringTask::displayTask`: the text it writes. -/
def RecurringTask.displayTask (t : RecurringTask) : String :=
  let out := "Recurring Task: Description: " ++ t.base.description
  let out :=
    if t.base.isCompleted then
      out ++ " (Completed)"
    else
      out ++ " (Not Completed)"
  let out := out ++ ", Frequency: "
  let out :=
    if t.frequency = 1 then
      out ++ "Daily"
    else if t.frequency = 7 then
      out ++ "Weekly"
    else if t.frequency = 30 then
      out ++ "Monthly"
    else
      out ++ "Unknown"
  out ++ endl

/-- What a `TaskBase*` of the vector points to: an object of one of the two
concrete classes. -/
inductive TaskObj where
  | task (t : Task)
  | recurring (t : RecurringTask)
deriving DecidableEq, Repr

/-- The data members inherited from `TaskBase`. -/
def TaskObj.base : TaskObj → TaskBase
  | .task t => t.base
  | .recurring t => t.base

/-- The call `p->markAsCompleted()` through a `TaskBase*`. -/
def TaskObj.markAsCompleted : TaskObj → TaskObj
  | .task t => .task { t with base := t.base.markAsCompleted }
  | .recurring t => .recurring { t with base := t.base.markAsCompleted }

/-- The call `p->isTaskCompleted()` through a `TaskBase*`. -/
def TaskObj.isTaskCompleted (p : TaskObj) : Bool :=
  p.base.isTaskCompleted

/-- The virtual call `p->displayTask()` through a `TaskBase*`. -/
def TaskObj.displayTask : TaskObj → String
  | .task t => t.displayTask
  | .recurring t => t.displayTask

/-! ## The list class -/

/-- The data member of `class ToDoList`. -/
structure ToDoList where
  tasks : List TaskObj
deriving DecidableEq, Repr

/-- The constructor `ToDoList()`. -/
def ToDoList.new : ToDoList :=
  { tasks := [] }

/-- The member `ToDoList::addTask`. -/
def ToDoList.addTask (l : ToDoList) (task : TaskObj) : ToDoList :=
  { tasks := l.tasks ++ [task] }

/-- The `for` loop of `ToDoList::displayTasks`, entered with loop variable `i`
and the tasks from position `i` on still to be shown. -/
def displayLoop (i : Nat) : List TaskObj → String
  | [] => ""
  | t :: rest => "[" ++ toString (i + 1) ++ "] " ++ t.displayTask ++ displayLoop (i + 1) rest

/-- The member `ToDoList::displayTasks`: the text it writes. -/
def ToDoList.displayTasks (l : ToDoList) : String :=
  if l.tasks.isEmpty then
    "No tasks in the ToDo list." ++ endl
  else
    displayLoop 0 l.tasks

/-- The text one pass of the loop of `displayTasks` writes: the position `k`
(counted from 1) in brackets, then the task. -/
def taskLine (k : Nat) (p : TaskObj) : String :=
  "[" ++ toString k ++ "] " ++ p.displayTask

/-- The pieces of text, one for each task and in the order of the list, that
`displayTasks` writes on a list that is not empty. -/
def displayLines (l : ToDoList) : List String :=
  (l.tasks.enumFrom 1).map (fun kp => taskLine kp.1 kp.2)

/-- The member `ToDoList::isValidIndex`. -/
def ToDoList.isValidIndex (l : ToDoList) (index : Int) : Bool :=
  decide (index ≥ 0) && decide (index < castToInt l.tasks.length)

/-- The member `ToDoList::markTaskAsCompleted`: the list afterwards and the
text written. -/
def ToDoList.markTaskAsCompleted (l : ToDoList) (index : Int) : Option (ToDoList × String) :=
  if l.isValidIndex index then
    match l.tasks[castToSize index]? with
    | some p =>
      some ({ tasks := l.tasks.set (castToSize index) p.markAsCompleted },
        "Task marked as completed!" ++ endl)
    | none => none
  else
    some (l, "Invalid task index!" ++ endl)

/-- The member `ToDoList::removeTask`: the list afterwards and the text
written. -/
def ToDoList.removeTask (l : ToDoList) (index : Int) : Option (ToDoList × String) :=
  if l.isValidIndex index then
    match l.tasks[castToSize index]? with
    | some _ =>
      some ({ tasks := l.tasks.eraseIdx (castToSize index) }, "Task removed!" ++ endl)
    | none => none
  else
    some (l, "Invalid task index!" ++ endl)

/-! ## The command loop of `main` -/

/-- The values `std::cin` delivers to the reads of one pass of the loop of
`main`. A pass uses only the values whose read it reaches. -/
structure Reads where
  choice : Int
  taskType : Int
  description : String
  dueDate : String
  frequency : Int
  index : Int
deriving DecidableEq, Repr

/-- The `int` expression `index - 1`. Below the least `int` the subtraction
overflows and has no defined result. -/
def minusOne (index : Int) : Option Int :=
  if index - 1 < -(2 ^ 31) then none else some (index - 1)

/-- The text `main` writes at the start of every pass: the menu and the prompt
for the choice. -/
def menuText : String :=
  "===== ToDo List Application =====" ++ endl
    ++ "1. Add Task\n2. Display Tasks\n3. Mark Task as Completed\n4. Remove Task\n0. Exit" ++ endl
    ++ "Enter your choice: "

/-- The body of `case 1` of `main`: the list afterwards and the text written. -/
def mainCase1 (todoList : ToDoList) (input : Reads) : ToDoList × String :=
  let out := "Select Task Type: 1. Regular Task 2. Recurring Task: "
  let out := out ++ "Enter task description: "
  if input.taskType = 1 then
    let out := out ++ "Enter due date (yyyy-mm-dd): "
    let newTask := Task.new input.description input.dueDate
    (todoList.addTask (.task newTask), out ++ "Task added!" ++ endl)
  else if input.taskType = 2 then
    let out := out ++ "Enter frequency (1: Daily, 7: Weekly, 30: Monthly): "
    let newRecurringTask := RecurringTask.new input.description input.frequency
    (todoList.addTask (.recurring newRecurringTask), out ++ "Task added!" ++ endl)
  else
    let out := out ++ "Invalid task type. Please try again." ++ endl
    (todoList, out ++ "Task added!" ++ endl)

/-- The body of `case 2` of `main`. -/
def mainCase2 (todoList : ToDoList) : ToDoList × String :=
  (todoList, todoList.displayTasks)

/-- The body of `case 3` of `main`. -/
def mainCase3 (todoList : ToDoList) (input : Reads) : Option (ToDoList × String) :=
  let out := "Enter the index of the task to mark as completed: "
  match minusOne input.index with
  | none => none
  | some arg =>
    match todoList.markTaskAsCompleted arg with
    | none => none
    | some (l, written) => some (l, out ++ written)

/-- The body of `case 4` of `main`. -/
def mainCase4 (todoList : ToDoList) (input : Reads) : Option (ToDoList × String) :=
  let out := "Enter the index of the task to remove: "
  match minusOne input.index with
  | none => none
  | some arg =>
    match todoList.removeTask arg with
    | none => none
    | some (l, written) => some (l, out ++ written)

/-- One pass of the `do` loop of `main`: the menu, the `switch` on the choice
and the closing empty line. -/
def mainPass (todoList : ToDoList) (input : Reads) : Option (ToDoList × String) :=
  let body : Option (ToDoList × String) :=
    if input.choice = 1 then some (mainCase1 todoList input)
    else if input.choice = 2 then some (mainCase2 todoList)
    else if input.choice = 3 then mainCase3 todoList input
    else if input.choice = 4 then mainCase4 todoList input
    else if input.choice = 0 then some (todoList, "Exiting ToDo List Application. Goodbye!" ++ endl)
    else some (todoList, "Invalid choice. Please try again." ++ endl)
  match body with
  | none => none
  | some (l, written) => some (l, menuText ++ written ++ endl)

/-- The condition `choice != 0` of the loop of `main`. -/
def mainContinues (input : Reads) : Bool :=
  decide (input.choice ≠ 0)

/-! ## Sequences of list operations -/

/-- A call of one of the public members of `ToDoList`, with its argument. -/
inductive Op where
  | addTask (task : TaskObj)
  | displayTasks
  | markTaskAsCompleted (index : Int)
  | removeTask (index : Int)
deriving DecidableEq, Repr

/-- The call `op` made on the list: the list afterwards and the text written. -/
def ToDoList.call (l : ToDoList) : Op → Option (ToDoList × String)
  | .addTask task => some (l.addTask task, "")
  | .displayTasks => some (l, l.displayTasks)
  | .markTaskAsCompleted index => l.markTaskAsCompleted index
  | .removeTask index => l.removeTask index

/-- The calls `ops` made one after the other: the list at the end and all the
text written. -/
def ToDoList.callAll (l : ToDoList) : List Op → Option (ToDoList × String)
  | [] => some (l, "")
  | op :: ops =>
    match l.call op with
    | none => none
    | some (l1, out1) =>
      match ToDoList.callAll l1 ops with
      | none => none
      | some (l2, out2) => some (l2, out1 ++ out2)

/-- Where the object at position `j` of the vector is after the call `op`:
`erase` moves the objects behind the erased one down by one place and the
erased object is gone; no other call moves an object. -/
def positionAfter (l : ToDoList) (op : Op) (j : Nat) : Option Nat :=
  match op with
  | .removeTask index =>
    if l.isValidIndex index then
      if j < castToSize index then some j
      else if j = castToSize index then none
      else some (j - 1)
    else some j
  | _ => some j

/-- Where the object at position `j` is after the calls `ops`, if it is still
in the vector. -/
def positionAfterAll (l : ToDoList) : List Op → Nat → Option Nat
  | [], j => some j
  | op :: ops, j =>
    match l.call op, positionAfter l op j with
    | some (l1, _), some j1 => positionAfterAll l1 ops j1
    | _, _ => none

/-- Whether `op` is a call of `markTaskAsCompleted`. -/
def Op.isMark : Op → Bool
  | .markTaskAsCompleted _ => true
  | _ => false

/-! ## The operations as the specification words them -/

/-- The specified `remove(n)`, with `n` a position counted from 1: inside
`[1, length]` the element at that position is deleted and the later ones move
down by one, with the success message; outside, nothing changes and the index
is reported invalid. -/
def specRemove (l : ToDoList) (n : Int) : ToDoList × String :=
  if 1 ≤ n ∧ n ≤ (l.tasks.length : Int) then
    ({ tasks := l.tasks.take (n.toNat - 1) ++ l.tasks.drop n.toNat }, "Task removed!\n")
  else
    (l, "Invalid task index!\n")

/-- The specified `markCompleted(task)`: the same task, of the same variant
and with the same description and due date or frequency, with `completed`
true. -/
def specCompleted : TaskObj → TaskObj
  | .task t =>
    .task { base := { description := t.base.description, dueDate := t.base.dueDate,
                      isCompleted := true } }
  | .recurring t =>
    .recurring { base := { description := t.base.description, dueDate := t.base.dueDate,
                           isCompleted := true },
                 frequency := t.frequency }

/-- The specified `markCompleted(n)`, with `n` a position counted from 1:
inside `[1, length]` exactly the task at that position is completed, with the
success message; outside, nothing changes and the index is reported invalid. -/
def specMarkCompleted (l : ToDoList) (n : Int) : ToDoList × String :=
  if 1 ≤ n ∧ n ≤ (l.tasks.length : Int) then
    ({ tasks := (l.tasks.enumFrom 1).map
        (fun kp => if (kp.1 : Int) = n then specCompleted kp.2 else kp.2) },
      "Task marked as completed!\n")
  else
    (l, "Invalid task index!\n")

/-- The specified `render(task)`: the line of a task, without its line end. -/
def specRender : TaskObj → String
  | .task t =>
    "Description: " ++ t.base.description ++ ", Due Date: " ++ t.base.dueDate
      ++ (if t.base.isCompleted = true then " (Completed)" else " (Not Completed)")
  | .recurring t =>
    "Recurring Task: Description: " ++ t.base.description
      ++ (if t.base.isCompleted = true then " (Completed)" else " (Not Completed)")
      ++ ", Frequency: "
      ++ (if t.frequency = 1 then "Daily" else if t.frequency = 7 then "Weekly"
          else if t.frequency = 30 then "Monthly" else "Unknown")

/-! ## The lines of a text -/

/-- The lines of a sequence of characters: a line ends at each line end, and
characters after the last line end form a last line. -/
def linesOfChars : List Char → List (List Char)
  | [] => []
  | c :: cs =>
    if c = '\n' then [] :: linesOfChars cs
    else
      match linesOfChars cs with
      | [] => [[c]]
      | line :: rest => (c :: line) :: rest

/-- The lines of a text written to `std::cout`, each without its line end. -/
def textLines (s : String) : List String :=
  (linesOfChars s.data).map String.mk

/-- Whether a string holds no line end. -/
def noLineBreak (s : String) : Bool :=
  s.data.all (fun c => decide (c ≠ '\n'))

/-- Whether the strings of a task that `displayTask` writes, the description
and for a dated task the due date, hold no line end. -/
def TaskObj.printsOneLine : TaskObj → Bool
  | .task t => noLineBreak t.base.description && noLineBreak t.base.dueDate
  | .recurring t => noLineBreak t.base.description

/-! ## Sample data -/

/-- The dated task of the round-trip scenario. -/
def buyMilk : TaskObj := .task (Task.new "Buy milk" "2024-01-01")

/-- The recurring task of the round-trip scenario. -/
def stretch : TaskObj := .recurring (RecurringTask.new "Stretch" 7)

/-- The two-task list of the round-trip scenario. -/
def twoTasks : ToDoList := (ToDoList.new.addTask buyMilk).addTask stretch

/-- A list holding only the dated task. -/
def oneTask : ToDoList := ToDoList.new.addTask buyMilk

/-- A dated task whose description holds a line end. -/
def twoLineTask : TaskObj := .task (Task.new "Buy milk\nand bread" "2024-01-01")

/-- A dated task whose description holds the text of the message for the empty
list between two line ends. -/
def messageTask : TaskObj :=
  .task (Task.new "Plan\nNo tasks in the ToDo list.\nCall" "2024-01-01")

/-- A pass of the loop in which the user chooses `choice` and types `index`. -/
def typed (choice index : Int) : Reads :=
  { choice := choice, taskType := 0, description := "", dueDate := "", frequency := 0,
    index := index }

/-- A pass of the loop in which the user chooses to add a task and types these
values. -/
def typedAdd (taskType : Int) (description dueDate : String) (frequency : Int) : Reads :=
  { choice := 1, taskType := taskType, description := description, dueDate := dueDate,
    frequency := frequency, index := 0 }

/-! ## Facts about the integer conversions and the index check -/

theorem castToInt_le (n : Nat) : castToInt n ≤ (n : Int) := by
  unfold castToInt
  split <;> omega

theorem castToInt_lt (n : Nat) : castToInt n < 2 ^ 31 := by
  unfold castToInt
  split <;> omega

theorem castToInt_of_lt (n : Nat) (h : n < 2 ^ 31) : castToInt n = (n : Int) := by
  unfold castToInt
  split <;> omega

theorem castToSize_natCast (k : Nat) (h : k < 2 ^ 64) : castToSize (k : Int) = k := by
  unfold castToSize
  omega

theorem isValidIndex_iff (l : ToDoList) (index : Int) :
    l.isValidIndex index = true ↔ 0 ≤ index ∧ index < castToInt l.tasks.length := by
  simp [ToDoList.isValidIndex]

/-- An index that passes the check is the position of an element. -/
theorem isValidIndex_inRange (l : ToDoList) (index : Int) (h : l.isValidIndex index = true) :
    ∃ k : Nat, index = (k : Int) ∧ castToSize index = k ∧ k < l.tasks.length := by
  rw [isValidIndex_iff] at h
  have h1 := castToInt_le l.tasks.length
  have h2 := castToInt_lt l.tasks.length
  refine ⟨index.toNat, by omega, ?_, by omega⟩
  have h3 : index = ((index.toNat : Nat) : Int) := by omega
  have h4 : index.toNat < 2 ^ 64 := by omega
  have h5 := castToSize_natCast index.toNat h4
  rw [← h3] at h5
  exact h5

theorem isValidIndex_of_inRange (l : ToDoList) (index : Int) (hN : l.tasks.length < 2 ^ 31)
    (h0 : 0 ≤ index) (hi : index < (l.tasks.length : Int)) : l.isValidIndex index = true := by
  rw [isValidIndex_iff, castToInt_of_lt _ hN]
  exact ⟨h0, hi⟩

theorem isValidIndex_of_outOfRange (l : ToDoList) (index : Int)
    (h : index < 0 ∨ (l.tasks.length : Int) ≤ index) : l.isValidIndex index = false := by
  rw [Bool.eq_false_iff]
  intro hv
  rw [isValidIndex_iff] at hv
  have h1 := castToInt_le l.tasks.length
  omega

/-! ## The two branches of the indexed operations -/

theorem removeTask_of_valid (l : ToDoList) (index : Int) (h : l.isValidIndex index = true) :
    l.removeTask index
      = some ({ tasks := l.tasks.eraseIdx index.toNat }, "Task removed!" ++ endl) := by
  obtain ⟨k, hk, hs, hlt⟩ := isValidIndex_inRange l index h
  have ht : index.toNat = k := by omega
  simp only [ToDoList.removeTask, h, if_true, hs, ht, List.getElem?_eq_getElem hlt]

theorem removeTask_of_invalid (l : ToDoList) (index : Int) (h : l.isValidIndex index = false) :
    l.removeTask index = some (l, "Invalid task index!" ++ endl) := by
  simp [ToDoList.removeTask, h]

theorem markTaskAsCompleted_of_valid (l : ToDoList) (index : Int)
    (h : l.isValidIndex index = true) :
    ∃ p : TaskObj, l.tasks[index.toNat]? = some p ∧
      l.markTaskAsCompleted index
        = some ({ tasks := l.tasks.set index.toNat p.markAsCompleted },
            "Task marked as completed!" ++ endl) := by
  obtain ⟨k, hk, hs, hlt⟩ := isValidIndex_inRange l index h
  have ht : index.toNat = k := by omega
  refine ⟨l.tasks[k], by rw [ht, List.getElem?_eq_getElem hlt], ?_⟩
  simp only [ToDoList.markTaskAsCompleted, h, if_true, hs, ht, List.getElem?_eq_getElem hlt]

theorem markTaskAsCompleted_of_invalid (l : ToDoList) (index : Int)
    (h : l.isValidIndex index = false) :
    l.markTaskAsCompleted index = some (l, "Invalid task index!" ++ endl) := by
  simp [ToDoList.markTaskAsCompleted, h]

theorem markAsCompleted_isTaskCompleted (p : TaskObj) :
    p.markAsCompleted.isTaskCompleted = true := by
  cases p <;> rfl

/-! ## Displaying the list -/

theorem join_cons (s : String) (ss : List String) :
    String.join (s :: ss) = s ++ String.join ss := by
  apply String.ext
  simp [String.data_join, String.data_append]

theorem displayLoop_eq_join (ts : List TaskObj) (i : Nat) :
    displayLoop i ts = String.join ((ts.enumFrom (i + 1)).map (fun kp => taskLine kp.1 kp.2)) := by
  induction ts generalizing i with
  | nil => rfl
  | cons t rest ih =>
    rw [displayLoop, ih (i + 1), List.enumFrom_cons, List.map_cons, join_cons]
    simp only [taskLine, String.append_assoc]

theorem displayTasks_cons (t : TaskObj) (ts : List TaskObj) :
    (ToDoList.mk (t :: ts)).displayTasks = String.join (displayLines (ToDoList.mk (t :: ts))) := by
  simp only [ToDoList.displayTasks, List.isEmpty_cons, displayLines]
  exact displayLoop_eq_join (t :: ts) 0

theorem displayTasks_eq_join (l : ToDoList) (h : l.tasks ≠ []) :
    l.displayTasks = String.join (displayLines l) := by
  obtain ⟨ts⟩ := l
  cases ts with
  | nil => exact absurd rfl h
  | cons t rest => exact displayTasks_cons t rest

theorem length_displayLines (l : ToDoList) : (displayLines l).length = l.tasks.length := by
  simp [displayLines]

theorem getElem?_displayLines (l : ToDoList) (j : Nat) :
    (displayLines l)[j]? = (l.tasks[j]?).map (fun p => taskLine (j + 1) p) := by
  simp only [displayLines, List.getElem?_map, List.getElem?_enumFrom, Option.map_map]
  cases l.tasks[j]? with
  | none => rfl
  | some p => simp [Nat.add_comm]

/-! ## Removing a task -/

/-- C1, as the code has it: on a list of N tasks (N below 2^31) and for every
index i with 0 <= i < N, `removeTask` called with i as the 0-based position
writes "Task removed!" and leaves a list of length N-1 in which every element
before position i is unchanged and every element formerly at a position j > i
is now at position j-1. -/
theorem removeTask_zeroBased (l : ToDoList) (i : Int) (hN : l.tasks.length < 2 ^ 31)
    (h0 : 0 ≤ i) (hi : i < (l.tasks.length : Int)) :
    ∃ r : ToDoList, l.removeTask i = some (r, "Task removed!\n") ∧
      r.tasks.length + 1 = l.tasks.length ∧
      (∀ j : Nat, (j : Int) < i → r.tasks[j]? = l.tasks[j]?) ∧
      (∀ j : Nat, i < (j : Int) → r.tasks[j - 1]? = l.tasks[j]?) := by
  have hv := isValidIndex_of_inRange l i hN h0 hi
  refine ⟨{ tasks := l.tasks.eraseIdx i.toNat }, removeTask_of_valid l i hv, ?_, ?_, ?_⟩
  · show (l.tasks.eraseIdx i.toNat).length + 1 = l.tasks.length
    rw [List.length_eraseIdx_of_lt (by omega)]
    omega
  · intro j hj
    show (l.tasks.eraseIdx i.toNat)[j]? = l.tasks[j]?
    exact List.getElem?_eraseIdx_of_lt l.tasks i.toNat j (by omega)
  · intro j hj
    show (l.tasks.eraseIdx i.toNat)[j - 1]? = l.tasks[j]?
    rw [List.getElem?_eraseIdx_of_ge l.tasks i.toNat (j - 1) (by omega)]
    congr 1
    omega

/-- A use of `removeTask_zeroBased`: index 0 on the two-task list. -/
theorem removeTask_zeroBased_witness :
    ∃ r : ToDoList, twoTasks.removeTask 0 = some (r, "Task removed!\n") ∧
      r.tasks.length + 1 = twoTasks.tasks.length ∧
      (∀ j : Nat, (j : Int) < 0 → r.tasks[j]? = twoTasks.tasks[j]?) ∧
      (∀ j : Nat, (0 : Int) < (j : Int) → r.tasks[j - 1]? = twoTasks.tasks[j]?) :=
  removeTask_zeroBased twoTasks 0 (by decide) (by decide) (by decide)

/-- C1 as stated fails on the two-task list. With i = 2 (1 <= 2 <= N = 2) the
call writes "Invalid task index!" and removes nothing; with i = 1 it succeeds
but removes the second task, so the first position still holds the task that
was there and not the former second one. -/
theorem removeTask_oneBased_counterexample :
    twoTasks.tasks.length = 2 ∧
    twoTasks.removeTask 2 = some (twoTasks, "Invalid task index!\n") ∧
    (¬ ∃ r : ToDoList, twoTasks.removeTask 2 = some (r, "Task removed!\n") ∧
        r.tasks.length = 1) ∧
    twoTasks.removeTask 1 = some ({ tasks := [buyMilk] }, "Task removed!\n") ∧
    (¬ ∃ r : ToDoList, twoTasks.removeTask 1 = some (r, "Task removed!\n") ∧
        r.tasks[0]? = twoTasks.tasks[1]?) := by
  refine ⟨by decide, by decide, ?_, by decide, ?_⟩
  · rintro ⟨r, hr, -⟩
    have h : twoTasks.removeTask 2 = some (twoTasks, "Invalid task index!\n") := by decide
    rw [h] at hr
    simp at hr
  · rintro ⟨r, hr, h0⟩
    have h : twoTasks.removeTask 1 = some ({ tasks := [buyMilk] }, "Task removed!\n") := by decide
    rw [h] at hr
    simp only [Option.some.injEq, Prod.mk.injEq, and_true] at hr
    subst hr
    revert h0
    decide

/-! ## Marking a task as completed -/

/-- C2, as the code has it: on a list of N tasks (N below 2^31) and for every
index i with 0 <= i < N, `markTaskAsCompleted` called with i as the 0-based
position sets the completed flag of the task at position i, writes "Task marked
as completed!", and keeps the length, the order and every other task, so that
of the pieces `displayTasks` writes only the one of position i can change. -/
theorem markTaskAsCompleted_zeroBased (l : ToDoList) (i : Int)
    (hN : l.tasks.length < 2 ^ 31) (h0 : 0 ≤ i) (hi : i < (l.tasks.length : Int)) :
    ∃ (r : ToDoList) (p : TaskObj),
      l.markTaskAsCompleted i = some (r, "Task marked as completed!\n") ∧
      l.tasks[i.toNat]? = some p ∧
      r.tasks[i.toNat]? = some p.markAsCompleted ∧
      p.markAsCompleted.isTaskCompleted = true ∧
      r.tasks.length = l.tasks.length ∧
      (∀ j : Nat, (j : Int) ≠ i → r.tasks[j]? = l.tasks[j]?) ∧
      l.displayTasks = String.join (displayLines l) ∧
      r.displayTasks = String.join (displayLines r) ∧
      (displayLines r).length = (displayLines l).length ∧
      (∀ j : Nat, (j : Int) ≠ i → (displayLines r)[j]? = (displayLines l)[j]?) := by
  have hv := isValidIndex_of_inRange l i hN h0 hi
  obtain ⟨p, hp, hm⟩ := markTaskAsCompleted_of_valid l i hv
  have hlen : (l.tasks.set i.toNat p.markAsCompleted).length = l.tasks.length :=
    List.length_set ..
  have hne : l.tasks ≠ [] := by
    intro hnil
    rw [hnil] at hi
    simp at hi
    omega
  have hne2 : l.tasks.set i.toNat p.markAsCompleted ≠ [] := by
    intro hnil
    rw [hnil] at hlen
    exact hne (List.length_eq_zero.mp hlen.symm)
  have hother : ∀ j : Nat, (j : Int) ≠ i →
      (l.tasks.set i.toNat p.markAsCompleted)[j]? = l.tasks[j]? :=
    fun j hj => List.getElem?_set_ne (by omega)
  refine ⟨{ tasks := l.tasks.set i.toNat p.markAsCompleted }, p, hm, hp, ?_,
    markAsCompleted_isTaskCompleted p, ?_, ?_, displayTasks_eq_join l hne,
    displayTasks_eq_join _ hne2, ?_, ?_⟩
  · show (l.tasks.set i.toNat p.markAsCompleted)[i.toNat]? = some p.markAsCompleted
    rw [List.getElem?_set_self (by omega)]
  · show (l.tasks.set i.toNat p.markAsCompleted).length = l.tasks.length
    exact List.length_set ..
  · exact hother
  · rw [length_displayLines, length_displayLines]
    exact hlen
  · intro j hj
    rw [getElem?_displayLines, getElem?_displayLines]
    show ((l.tasks.set i.toNat p.markAsCompleted)[j]?).map _ = _
    rw [hother j hj]

/-- A use of `markTaskAsCompleted_zeroBased`: index 1 on the two-task list. -/
theorem markTaskAsCompleted_zeroBased_witness :
    ∃ (r : ToDoList) (p : TaskObj),
      twoTasks.markTaskAsCompleted 1 = some (r, "Task marked as completed!\n") ∧
      twoTasks.tasks[(1 : Int).toNat]? = some p ∧
      r.tasks[(1 : Int).toNat]? = some p.markAsCompleted ∧
      p.markAsCompleted.isTaskCompleted = true ∧
      r.tasks.length = twoTasks.tasks.length ∧
      (∀ j : Nat, (j : Int) ≠ 1 → r.tasks[j]? = twoTasks.tasks[j]?) ∧
      twoTasks.displayTasks = String.join (displayLines twoTasks) ∧
      r.displayTasks = String.join (displayLines r) ∧
      (displayLines r).length = (displayLines twoTasks).length ∧
      (∀ j : Nat, (j : Int) ≠ 1 → (displayLines r)[j]? = (displayLines twoTasks)[j]?) :=
  markTaskAsCompleted_zeroBased twoTasks 1 (by decide) (by decide) (by decide)

/-- C2 as stated fails on the two-task list. With i = 2 (1 <= 2 <= N = 2) the
call writes "Invalid task index!" and completes nothing; with i = 1 it
completes the second task and leaves the first one, the task at 1-based
position 1, not completed. -/
theorem markTaskAsCompleted_oneBased_counterexample :
    twoTasks.tasks.length = 2 ∧
    twoTasks.markTaskAsCompleted 2 = some (twoTasks, "Invalid task index!\n") ∧
    twoTasks.markTaskAsCompleted 2
      ≠ some ({ tasks := [buyMilk, stretch.markAsCompleted] }, "Task marked as completed!\n") ∧
    twoTasks.markTaskAsCompleted 1
      = some ({ tasks := [buyMilk, stretch.markAsCompleted] }, "Task marked as completed!\n") ∧
    twoTasks.markTaskAsCompleted 1
      ≠ some ({ tasks := [buyMilk.markAsCompleted, stretch] }, "Task marked as completed!\n") ∧
    buyMilk.isTaskCompleted = false := by
  decide

/-! ## Indices that are refused -/

/-- C3, as the code has it: on every list of length N (the empty list too) and
for every integer i with i < 0 or i >= N, `markTaskAsCompleted` and
`removeTask` each write "Invalid task index!" and return the list as it was. -/
theorem invalidIndex_unchanged (l : ToDoList) (i : Int)
    (h : i < 0 ∨ (l.tasks.length : Int) ≤ i) :
    l.markTaskAsCompleted i = some (l, "Invalid task index!\n") ∧
    l.removeTask i = some (l, "Invalid task index!\n") := by
  have hv := isValidIndex_of_outOfRange l i h
  exact ⟨markTaskAsCompleted_of_invalid l i hv, removeTask_of_invalid l i hv⟩

/-- A use of `invalidIndex_unchanged`: index -1 on the two-task list. -/
theorem invalidIndex_unchanged_witness :
    ((-1 : Int) < 0 ∨ (twoTasks.tasks.length : Int) ≤ -1) ∧
    twoTasks.markTaskAsCompleted (-1) = some (twoTasks, "Invalid task index!\n") ∧
    twoTasks.removeTask (-1) = some (twoTasks, "Invalid task index!\n") :=
  ⟨by decide, invalidIndex_unchanged twoTasks (-1) (by decide)⟩

/-- C3 as stated fails at i = 0 on the one-task list: 0 < 1, yet both calls
succeed, the one completing the task and the other removing it. -/
theorem invalidIndex_oneBased_counterexample :
    (0 : Int) < 1 ∧
    oneTask.markTaskAsCompleted 0
      = some ({ tasks := [buyMilk.markAsCompleted] }, "Task marked as completed!\n") ∧
    oneTask.markTaskAsCompleted 0 ≠ some (oneTask, "Invalid task index!\n") ∧
    oneTask.removeTask 0 = some ({ tasks := [] }, "Task removed!\n") ∧
    oneTask.removeTask 0 ≠ some (oneTask, "Invalid task index!\n") := by
  decide

/-! ## The index check -/

/-- C4, as the code has it: on every list of length below 2^31 and for every
index, `isValidIndex` returns true exactly when 0 <= index < length. The
member is `const`: it returns the boolean only and the list is not changed. -/
theorem isValidIndex_zeroBased (l : ToDoList) (index : Int) (hN : l.tasks.length < 2 ^ 31) :
    l.isValidIndex index = true ↔ 0 ≤ index ∧ index < (l.tasks.length : Int) := by
  rw [isValidIndex_iff, castToInt_of_lt _ hN]

/-- A use of `isValidIndex_zeroBased`: indices 0, 1 and 2 on the two-task list. -/
theorem isValidIndex_zeroBased_witness :
    twoTasks.isValidIndex 0 = true ∧ twoTasks.isValidIndex 1 = true ∧
    twoTasks.isValidIndex 2 = false :=
  ⟨(isValidIndex_zeroBased twoTasks 0 (by decide)).mpr (by decide),
   (isValidIndex_zeroBased twoTasks 1 (by decide)).mpr (by decide),
   Bool.eq_false_iff.mpr (fun h =>
     absurd ((isValidIndex_zeroBased twoTasks 2 (by decide)).mp h) (by decide))⟩

/-- C4 as stated fails on the one-task list: index 0 is accepted although
1 <= 0 is false, and index 1 is refused although 1 <= 1 <= length. -/
theorem isValidIndex_oneBased_counterexample :
    oneTask.tasks.length = 1 ∧
    oneTask.isValidIndex 0 = true ∧ ¬ ((1 : Int) ≤ 0) ∧
    oneTask.isValidIndex 1 = false ∧ (1 : Int) ≤ 1 ∧ (1 : Int) ≤ oneTask.tasks.length := by
  decide

/-! ## Adding tasks and displaying them -/

theorem foldl_addTask_tasks (ts : List TaskObj) (l : ToDoList) :
    (ts.foldl ToDoList.addTask l).tasks = l.tasks ++ ts := by
  induction ts generalizing l with
  | nil => simp
  | cons t rest ih => simp [List.foldl_cons, ih, ToDoList.addTask]

/-! ## Marking twice -/

theorem TaskObj.markAsCompleted_twice (p : TaskObj) :
    p.markAsCompleted.markAsCompleted = p.markAsCompleted := by
  cases p <;> rfl

theorem isValidIndex_congr (l r : ToDoList) (index : Int)
    (h : r.tasks.length = l.tasks.length) : r.isValidIndex index = l.isValidIndex index := by
  simp [ToDoList.isValidIndex, h]

/-- C6: marking completed is idempotent. For every list and every index,
accepted or refused, `markTaskAsCompleted` returns a list on which a second
call with the same index returns that same list again, so the list and what
`displayTasks` writes are the same after two calls as after one; and
`markAsCompleted` applied twice to a task gives the same task as applied
once. -/
theorem markTaskAsCompleted_idempotent (l : ToDoList) (index : Int) :
    (∃ (once twice : ToDoList) (out1 out2 : String),
      l.markTaskAsCompleted index = some (once, out1) ∧
      once.markTaskAsCompleted index = some (twice, out2) ∧
      twice = once ∧ twice.displayTasks = once.displayTasks) ∧
    (∀ b : TaskBase, b.markAsCompleted.markAsCompleted = b.markAsCompleted) ∧
    (∀ p : TaskObj, p.markAsCompleted.markAsCompleted = p.markAsCompleted) := by
  refine ⟨?_, fun _ => rfl, TaskObj.markAsCompleted_twice⟩
  cases hv : l.isValidIndex index with
  | false =>
    have h := markTaskAsCompleted_of_invalid l index hv
    exact ⟨l, l, _, _, h, h, rfl, rfl⟩
  | true =>
    obtain ⟨p, hp, hm⟩ := markTaskAsCompleted_of_valid l index hv
    have hlen : (l.tasks.set index.toNat p.markAsCompleted).length = l.tasks.length :=
      List.length_set ..
    have hv2 : (ToDoList.mk (l.tasks.set index.toNat p.markAsCompleted)).isValidIndex index
        = true := by
      rw [isValidIndex_congr l _ index hlen, hv]
    obtain ⟨q, hq, hm2⟩ := markTaskAsCompleted_of_valid _ index hv2
    obtain ⟨k, hk, -, hlt⟩ := isValidIndex_inRange l index hv
    have hq2 : q = p.markAsCompleted := by
      have h1 : (l.tasks.set index.toNat p.markAsCompleted)[index.toNat]? = some q := hq
      rw [List.getElem?_set_self (by omega)] at h1
      exact (Option.some.inj h1).symm
    have hset : (ToDoList.mk ((l.tasks.set index.toNat p.markAsCompleted).set index.toNat
        q.markAsCompleted)) = ToDoList.mk (l.tasks.set index.toNat p.markAsCompleted) := by
      rw [hq2, TaskObj.markAsCompleted_twice, List.set_set]
    refine ⟨_, _, _, _, hm, hm2, hset, by rw [hset]⟩

/-! ## What a task writes -/

/-- C7: for every description d, frequency f and completion state,
`RecurringTask::displayTask` writes "Recurring Task: Description: ", d,
" (Completed)" or " (Not Completed)", ", Frequency: ", the label and the line
end, the label being "Daily" for 1, "Weekly" for 7, "Monthly" for 30 and
"Unknown" for every other integer, among them 0, 14 and -5. -/
theorem recurringTask_displayTask_text (d s : String) (c : Bool) (f : Int) :
    RecurringTask.displayTask { base := { description := d, dueDate := s, isCompleted := c },
                                frequency := f }
      = "Recurring Task: Description: " ++ d
          ++ (if c = true then " (Completed)" else " (Not Completed)")
          ++ ", Frequency: "
          ++ (if f = 1 then "Daily" else if f = 7 then "Weekly"
              else if f = 30 then "Monthly" else "Unknown")
          ++ "\n" ∧
    (RecurringTask.new d 0).displayTask
      = "Recurring Task: Description: " ++ d ++ " (Not Completed)" ++ ", Frequency: "
          ++ "Unknown" ++ "\n" ∧
    (RecurringTask.new d 14).displayTask
      = "Recurring Task: Description: " ++ d ++ " (Not Completed)" ++ ", Frequency: "
          ++ "Unknown" ++ "\n" ∧
    (RecurringTask.new d (-5)).displayTask
      = "Recurring Task: Description: " ++ d ++ " (Not Completed)" ++ ", Frequency: "
          ++ "Unknown" ++ "\n" := by
  refine ⟨?_, ?_, ?_, ?_⟩
  · simp only [RecurringTask.displayTask, endl]
    cases c <;> split_ifs <;> rfl
  · simp [RecurringTask.displayTask, RecurringTask.new, TaskBase.new, endl]
  · simp [RecurringTask.displayTask, RecurringTask.new, TaskBase.new, endl]
  · simp [RecurringTask.displayTask, RecurringTask.new, TaskBase.new, endl]

/-- C8: for every description d, due date s and completion state,
`Task::displayTask` writes "Description: ", d, ", Due Date: ", s, then
" (Completed)" when the task is completed and " (Not Completed)" when it is
not, and the line end. -/
theorem task_displayTask_text (d s : String) :
    Task.displayTask { base := { description := d, dueDate := s, isCompleted := true } }
      = "Description: " ++ d ++ ", Due Date: " ++ s ++ " (Completed)" ++ "\n" ∧
    Task.displayTask { base := { description := d, dueDate := s, isCompleted := false } }
      = "Description: " ++ d ++ ", Due Date: " ++ s ++ " (Not Completed)" ++ "\n" := by
  constructor <;> simp [Task.displayTask, endl]

/-- C10: on the empty list, for every index, `markTaskAsCompleted` and
`removeTask` write "Invalid task index!" and the list stays empty. -/
theorem emptyList_invalidIndex (index : Int) :
    ToDoList.new.tasks = [] ∧
    ToDoList.new.markTaskAsCompleted index = some (ToDoList.new, "Invalid task index!\n") ∧
    ToDoList.new.removeTask index = some (ToDoList.new, "Invalid task index!\n") ∧
    ToDoList.new.markTaskAsCompleted 1 = some (ToDoList.new, "Invalid task index!\n") ∧
    ToDoList.new.removeTask 1 = some (ToDoList.new, "Invalid task index!\n") := by
  have hv : ∀ i : Int, ToDoList.new.isValidIndex i = false := by
    intro i
    apply isValidIndex_of_outOfRange
    have h0 : (ToDoList.new.tasks.length : Int) = 0 := rfl
    omega
  exact ⟨rfl, markTaskAsCompleted_of_invalid _ _ (hv index), removeTask_of_invalid _ _ (hv index),
    markTaskAsCompleted_of_invalid _ _ (hv 1), removeTask_of_invalid _ _ (hv 1)⟩

/-! ## What completing a task leaves alone -/

/-- C12: for a task of either class `markAsCompleted` changes only the
completed flag. A dated task stays a dated task and a recurring task a
recurring one, description, due date and frequency are kept as they are, and
the text `displayTask` writes afterwards is the text before with
" (Completed)" where the completion state stood. -/
theorem markAsCompleted_changes_flag_only (d s : String) (c : Bool) (f : Int) :
    TaskBase.markAsCompleted { description := d, dueDate := s, isCompleted := c }
      = { description := d, dueDate := s, isCompleted := true } ∧
    (TaskObj.task { base := { description := d, dueDate := s, isCompleted := c } }).markAsCompleted
      = TaskObj.task { base := { description := d, dueDate := s, isCompleted := true } } ∧
    (TaskObj.recurring { base := { description := d, dueDate := s, isCompleted := c },
                         frequency := f }).markAsCompleted
      = TaskObj.recurring { base := { description := d, dueDate := s, isCompleted := true },
                            frequency := f } ∧
    (TaskObj.task { base := { description := d, dueDate := s, isCompleted := c } }).displayTask
      = "Description: " ++ d ++ ", Due Date: " ++ s
          ++ (if c = true then " (Completed)" else " (Not Completed)") ++ "\n" ∧
    (TaskObj.task
        { base := { description := d, dueDate := s, isCompleted := c } }).markAsCompleted.displayTask
      = "Description: " ++ d ++ ", Due Date: " ++ s ++ " (Completed)" ++ "\n" ∧
    (TaskObj.recurring { base := { description := d, dueDate := s, isCompleted := c },
                         frequency := f }).displayTask
      = "Recurring Task: Description: " ++ d
          ++ (if c = true then " (Completed)" else " (Not Completed)")
          ++ ", Frequency: "
          ++ (if f = 1 then "Daily" else if f = 7 then "Weekly"
              else if f = 30 then "Monthly" else "Unknown")
          ++ "\n" ∧
    (TaskObj.recurring { base := { description := d, dueDate := s, isCompleted := c },
                         frequency := f }).markAsCompleted.displayTask
      = "Recurring Task: Description: " ++ d ++ " (Completed)" ++ ", Frequency: "
          ++ (if f = 1 then "Daily" else if f = 7 then "Weekly"
              else if f = 30 then "Monthly" else "Unknown")
          ++ "\n" := by
  refine ⟨rfl, rfl, rfl, ?_, ?_, ?_, ?_⟩
  · cases c <;> simp [TaskObj.displayTask, Task.displayTask, endl]
  · simp [TaskObj.markAsCompleted, TaskBase.markAsCompleted, TaskObj.displayTask,
      Task.displayTask, endl]
  · simp only [TaskObj.displayTask, RecurringTask.displayTask, endl]
    cases c <;> split_ifs <;> rfl
  · simp only [TaskObj.markAsCompleted, TaskBase.markAsCompleted, TaskObj.displayTask,
      RecurringTask.displayTask, endl]
    split_ifs <;> rfl

/-- C15: a newly constructed task is not completed. For every description d,
due date s and frequency f, `Task(d, s)` and `RecurringTask(d, f)` have the
completed flag false, `isTaskCompleted` returns false on both, `displayTask`
writes " (Not Completed)" for both, and the recurring task has the empty due
date. -/
theorem new_task_not_completed (d s : String) (f : Int) :
    (Task.new d s).base = { description := d, dueDate := s, isCompleted := false } ∧
    (RecurringTask.new d f).base = { description := d, dueDate := "", isCompleted := false } ∧
    (RecurringTask.new d f).frequency = f ∧
    (TaskObj.task (Task.new d s)).isTaskCompleted = false ∧
    (TaskObj.recurring (RecurringTask.new d f)).isTaskCompleted = false ∧
    (Task.new d s).displayTask
      = "Description: " ++ d ++ ", Due Date: " ++ s ++ " (Not Completed)" ++ "\n" ∧
    (RecurringTask.new d f).displayTask
      = "Recurring Task: Description: " ++ d ++ " (Not Completed)" ++ ", Frequency: "
          ++ (if f = 1 then "Daily" else if f = 7 then "Weekly"
              else if f = 30 then "Monthly" else "Unknown")
          ++ "\n" := by
  refine ⟨rfl, rfl, rfl, rfl, rfl, ?_, ?_⟩
  · simp [Task.displayTask, Task.new, TaskBase.new, endl]
  · simp only [RecurringTask.displayTask, RecurringTask.new, TaskBase.new, endl,
      Bool.false_eq_true, if_false]
    split_ifs <;> rfl

/-! ## No access out of range -/

/-- C14: no operation of the list fails on a bad index. For every list and
every index, `markTaskAsCompleted` and `removeTask` return a result, and either
the index is refused or 0 <= index < size and the element they index exists:
the branch of an access out of range is never taken. -/
theorem indexed_operations_total (l : ToDoList) (index : Int) :
    (l.markTaskAsCompleted index).isSome = true ∧
    (l.removeTask index).isSome = true ∧
    (l.isValidIndex index = false ∨
      (0 ≤ index ∧ index < (l.tasks.length : Int) ∧ castToSize index < l.tasks.length ∧
        (l.tasks[castToSize index]?).isSome = true)) := by
  cases hv : l.isValidIndex index with
  | false =>
    rw [markTaskAsCompleted_of_invalid l index hv, removeTask_of_invalid l index hv]
    exact ⟨rfl, rfl, Or.inl rfl⟩
  | true =>
    obtain ⟨p, -, hm⟩ := markTaskAsCompleted_of_valid l index hv
    obtain ⟨k, hk, hs, hlt⟩ := isValidIndex_inRange l index hv
    rw [hm, removeTask_of_valid l index hv]
    refine ⟨rfl, rfl, Or.inr ⟨by omega, by omega, by omega, ?_⟩⟩
    rw [hs, List.getElem?_eq_getElem hlt]
    rfl

/-! ## The command loop -/

theorem minusOne_of_gt (n : Int) (h : -(2 ^ 31) < n) : minusOne n = some (n - 1) := by
  unfold minusOne
  rw [if_neg (by omega)]

theorem mainPass_choice3 (l : ToDoList) (input : Reads) (hn : -(2 ^ 31) < input.index) :
    mainPass l { input with choice := 3 }
      = (l.markTaskAsCompleted (input.index - 1)).map (fun r =>
          (r.1, menuText ++ ("Enter the index of the task to mark as completed: " ++ r.2)
            ++ endl)) := by
  simp only [mainPass, mainCase3, minusOne_of_gt _ hn]
  cases l.markTaskAsCompleted (input.index - 1) <;> simp

theorem mainPass_choice4 (l : ToDoList) (input : Reads) (hn : -(2 ^ 31) < input.index) :
    mainPass l { input with choice := 4 }
      = (l.removeTask (input.index - 1)).map (fun r =>
          (r.1, menuText ++ ("Enter the index of the task to remove: " ++ r.2) ++ endl)) := by
  simp only [mainPass, mainCase4, minusOne_of_gt _ hn]
  cases l.removeTask (input.index - 1) <;> simp

/-- C13, as the code has it: for the menu choices 3 and 4 and every typed
number above the least `int`, the loop calls `markTaskAsCompleted` and
`removeTask` with the typed number minus one, and writes the menu, the prompt,
what the call writes and an empty line. -/
theorem main_passes_index_minus_one (l : ToDoList) (input : Reads)
    (hn : -(2 ^ 31) < input.index) :
    mainPass l { input with choice := 3 }
      = (l.markTaskAsCompleted (input.index - 1)).map (fun r =>
          (r.1, menuText ++ ("Enter the index of the task to mark as completed: " ++ r.2)
            ++ endl)) ∧
    mainPass l { input with choice := 4 }
      = (l.removeTask (input.index - 1)).map (fun r =>
          (r.1, menuText ++ ("Enter the index of the task to remove: " ++ r.2) ++ endl)) :=
  ⟨mainPass_choice3 l input hn, mainPass_choice4 l input hn⟩

/-- A use of `main_passes_index_minus_one`: the number 2 typed on the two-task
list. -/
theorem main_passes_index_minus_one_witness :
    mainPass twoTasks { typed 0 2 with choice := 3 }
      = (twoTasks.markTaskAsCompleted ((typed 0 2).index - 1)).map (fun r =>
          (r.1, menuText ++ ("Enter the index of the task to mark as completed: " ++ r.2)
            ++ endl)) ∧
    mainPass twoTasks { typed 0 2 with choice := 4 }
      = (twoTasks.removeTask ((typed 0 2).index - 1)).map (fun r =>
          (r.1, menuText ++ ("Enter the index of the task to remove: " ++ r.2) ++ endl)) :=
  main_passes_index_minus_one twoTasks (typed 0 2) (by decide)

/-- C13 as stated fails when 1 is typed on the one-task list: choice 4 removes
the task and choice 3 completes it, whereas `removeTask(1)` and
`markTaskAsCompleted(1)`, the calls with the typed number unchanged, refuse the
index and leave the list as it was. -/
theorem main_passes_typed_number_counterexample :
    mainPass oneTask (typed 4 1)
      = some ({ tasks := [] },
          menuText ++ "Enter the index of the task to remove: " ++ "Task removed!\n" ++ "\n") ∧
    oneTask.removeTask 1 = some (oneTask, "Invalid task index!\n") ∧
    mainPass oneTask (typed 3 1)
      = some ({ tasks := [buyMilk.markAsCompleted] },
          menuText ++ "Enter the index of the task to mark as completed: "
            ++ "Task marked as completed!\n" ++ "\n") ∧
    oneTask.markTaskAsCompleted 1 = some (oneTask, "Invalid task index!\n") ∧
    oneTask ≠ { tasks := [] } ∧ oneTask ≠ { tasks := [buyMilk.markAsCompleted] } := by
  decide

/-- C16: in the add-task flow, for every task type other than 1 and 2 and
every description the list is unchanged and the loop writes "Invalid task
type. Please try again." and then "Task added!"; for task type 1 exactly one
dated task with the typed description and due date is appended, for task type
2 exactly one recurring task with the typed description and frequency, and
"Task added!" is written. -/
theorem addTask_flow (l : ToDoList) (input : Reads)
    (h1 : input.taskType ≠ 1) (h2 : input.taskType ≠ 2) :
    mainPass l { input with choice := 1 }
      = some (l, menuText
          ++ ("Select Task Type: 1. Regular Task 2. Recurring Task: "
              ++ "Enter task description: "
              ++ "Invalid task type. Please try again.\n" ++ "Task added!\n")
          ++ "\n") ∧
    mainPass l { input with choice := 1, taskType := 1 }
      = some ({ tasks := l.tasks ++ [TaskObj.task
            { base := { description := input.description, dueDate := input.dueDate,
                        isCompleted := false } }] },
          menuText
          ++ ("Select Task Type: 1. Regular Task 2. Recurring Task: "
              ++ "Enter task description: "
              ++ "Enter due date (yyyy-mm-dd): " ++ "Task added!\n")
          ++ "\n") ∧
    mainPass l { input with choice := 1, taskType := 2 }
      = some ({ tasks := l.tasks ++ [TaskObj.recurring
            { base := { description := input.description, dueDate := "", isCompleted := false },
              frequency := input.frequency }] },
          menuText
          ++ ("Select Task Type: 1. Regular Task 2. Recurring Task: "
              ++ "Enter task description: "
              ++ "Enter frequency (1: Daily, 7: Weekly, 30: Monthly): " ++ "Task added!\n")
          ++ "\n") := by
  refine ⟨?_, ?_, ?_⟩
  · simp [mainPass, mainCase1, h1, h2, endl, String.append_assoc]
  · simp [mainPass, mainCase1, endl, String.append_assoc, ToDoList.addTask, Task.new,
      TaskBase.new]
  · simp [mainPass, mainCase1, endl, String.append_assoc, ToDoList.addTask, RecurringTask.new,
      TaskBase.new]

/-- A use of `addTask_flow`: task type 5 typed on the two-task list. -/
theorem addTask_flow_witness :
    mainPass twoTasks { typedAdd 5 "Call" "2024-02-02" 7 with choice := 1 }
      = some (twoTasks, menuText
          ++ ("Select Task Type: 1. Regular Task 2. Recurring Task: "
              ++ "Enter task description: "
              ++ "Invalid task type. Please try again.\n" ++ "Task added!\n")
          ++ "\n") ∧
    mainPass twoTasks { typedAdd 5 "Call" "2024-02-02" 7 with choice := 1, taskType := 1 }
      = some ({ tasks := twoTasks.tasks ++ [TaskObj.task
            { base := { description := "Call", dueDate := "2024-02-02",
                        isCompleted := false } }] },
          menuText
          ++ ("Select Task Type: 1. Regular Task 2. Recurring Task: "
              ++ "Enter task description: "
              ++ "Enter due date (yyyy-mm-dd): " ++ "Task added!\n")
          ++ "\n") ∧
    mainPass twoTasks { typedAdd 5 "Call" "2024-02-02" 7 with choice := 1, taskType := 2 }
      = some ({ tasks := twoTasks.tasks ++ [TaskObj.recurring
            { base := { description := "Call", dueDate := "", isCompleted := false },
              frequency := 7 }] },
          menuText
          ++ ("Select Task Type: 1. Regular Task 2. Recurring Task: "
              ++ "Enter task description: "
              ++ "Enter frequency (1: Daily, 7: Weekly, 30: Monthly): " ++ "Task added!\n")
          ++ "\n") :=
  addTask_flow twoTasks (typedAdd 5 "Call" "2024-02-02" 7) (by decide) (by decide)

/-! ## The commands against the specified operations -/

theorem markAsCompleted_eq_specCompleted (p : TaskObj) :
    p.markAsCompleted = specCompleted p := by
  cases p <;> rfl

theorem set_eq_map_enumFrom (ts : List TaskObj) (k : Nat) (p : TaskObj) (n : Int)
    (hp : ts[k]? = some p) (hn : n = (k : Int) + 1) :
    ts.set k p.markAsCompleted
      = (ts.enumFrom 1).map (fun kp => if (kp.1 : Int) = n then specCompleted kp.2 else kp.2) := by
  apply List.ext_getElem?
  intro j
  rw [List.getElem?_map, List.getElem?_enumFrom]
  by_cases hjk : k = j
  · subst hjk
    have hlt : k < ts.length := by
      rcases Nat.lt_or_ge k ts.length with h | h
      · exact h
      · rw [List.getElem?_eq_none h] at hp
        cases hp
    rw [List.getElem?_set_self hlt, hp]
    have heq : (((1 + k : Nat) : Int) = n) := by omega
    simp only [Option.map_some', heq, if_true, markAsCompleted_eq_specCompleted]
  · rw [List.getElem?_set_ne hjk]
    cases hj : ts[j]? with
    | none => rfl
    | some q =>
      have hne : ¬ ((1 + j : Nat) : Int) = n := by omega
      simp only [Option.map_some', hne, if_false]

/-- C17: end to end the remove command is the specified 1-based remove. For
every list of N tasks (N below 2^31) and every typed number n above the least
`int`, menu choice 4 leaves the list of the specified `remove(n)` and writes
its message: for 1 <= n <= N the task at 1-based position n is deleted, the
others keep their order and "Task removed!" is written, and otherwise the list
is unchanged and "Invalid task index!" is written. -/
theorem removeCommand_refines_specRemove (l : ToDoList) (input : Reads)
    (hN : l.tasks.length < 2 ^ 31) (hn : -(2 ^ 31) < input.index) :
    mainCase4 l input
      = some ((specRemove l input.index).1,
          "Enter the index of the task to remove: " ++ (specRemove l input.index).2) ∧
    mainPass l { input with choice := 4 }
      = some ((specRemove l input.index).1,
          menuText ++ ("Enter the index of the task to remove: " ++ (specRemove l input.index).2)
            ++ "\n") := by
  have hcore : l.removeTask (input.index - 1) = some (specRemove l input.index) := by
    by_cases hr : 1 ≤ input.index ∧ input.index ≤ (l.tasks.length : Int)
    · have hv := isValidIndex_of_inRange l (input.index - 1) hN (by omega) (by omega)
      rw [removeTask_of_valid l _ hv, specRemove, if_pos hr, List.eraseIdx_eq_take_drop_succ]
      have h1 : (input.index - 1).toNat = input.index.toNat - 1 := by omega
      have h2 : input.index.toNat - 1 + 1 = input.index.toNat := by omega
      rw [h1, h2]
      rfl
    · have hv := isValidIndex_of_outOfRange l (input.index - 1) (by omega)
      rw [removeTask_of_invalid l _ hv, specRemove, if_neg hr]
      rfl
  constructor
  · simp only [mainCase4, minusOne_of_gt _ hn, hcore]
  · rw [mainPass_choice4 l input hn, hcore]
    rfl

/-- A use of `removeCommand_refines_specRemove`: the number 1 typed on the
two-task list. -/
theorem removeCommand_refines_specRemove_witness :
    mainCase4 twoTasks (typed 4 1)
      = some ((specRemove twoTasks (typed 4 1).index).1,
          "Enter the index of the task to remove: " ++ (specRemove twoTasks (typed 4 1).index).2) ∧
    mainPass twoTasks { typed 4 1 with choice := 4 }
      = some ((specRemove twoTasks (typed 4 1).index).1,
          menuText
            ++ ("Enter the index of the task to remove: " ++ (specRemove twoTasks (typed 4 1).index).2)
            ++ "\n") :=
  removeCommand_refines_specRemove twoTasks (typed 4 1) (by decide) (by decide)

/-- C18: end to end the mark-completed command is the specified 1-based
markCompleted. For every list of N tasks (N below 2^31) and every typed number
n above the least `int`, menu choice 3 leaves the list of the specified
`markCompleted(n)` and writes its message: for 1 <= n <= N exactly the task at
1-based position n is completed, nothing else changes and "Task marked as
completed!" is written, and otherwise the list is unchanged and "Invalid task
index!" is written. The completed task of the specification, which the code's
`markAsCompleted` gives, is the same task with the completed flag true; so 2
typed on the two-task list completes the second task and leaves the first. -/
theorem markCommand_refines_specMarkCompleted (l : ToDoList) (input : Reads)
    (hN : l.tasks.length < 2 ^ 31) (hn : -(2 ^ 31) < input.index) :
    (∀ p : TaskObj, p.markAsCompleted = specCompleted p ∧
      (specCompleted p).isTaskCompleted = true) ∧
    mainCase3 l input
      = some ((specMarkCompleted l input.index).1,
          "Enter the index of the task to mark as completed: "
            ++ (specMarkCompleted l input.index).2) ∧
    mainPass l { input with choice := 3 }
      = some ((specMarkCompleted l input.index).1,
          menuText
            ++ ("Enter the index of the task to mark as completed: "
                ++ (specMarkCompleted l input.index).2)
            ++ "\n") ∧
    mainCase3 twoTasks (typed 3 2)
      = some ({ tasks := [buyMilk, TaskObj.recurring
            { base := { description := "Stretch", dueDate := "", isCompleted := true },
              frequency := 7 }] },
          "Enter the index of the task to mark as completed: Task marked as completed!\n") := by
  have hcore : l.markTaskAsCompleted (input.index - 1)
      = some (specMarkCompleted l input.index) := by
    by_cases hr : 1 ≤ input.index ∧ input.index ≤ (l.tasks.length : Int)
    · have hv := isValidIndex_of_inRange l (input.index - 1) hN (by omega) (by omega)
      obtain ⟨p, hp, hm⟩ := markTaskAsCompleted_of_valid l _ hv
      rw [hm, specMarkCompleted, if_pos hr,
        set_eq_map_enumFrom l.tasks _ p input.index hp (by omega)]
      rfl
    · have hv := isValidIndex_of_outOfRange l (input.index - 1) (by omega)
      rw [markTaskAsCompleted_of_invalid l _ hv, specMarkCompleted, if_neg hr]
      rfl
  refine ⟨?_, ?_, ?_, by decide⟩
  · intro p
    cases p <;> exact ⟨rfl, rfl⟩
  · simp only [mainCase3, minusOne_of_gt _ hn, hcore]
  · rw [mainPass_choice3 l input hn, hcore]
    rfl

/-- A use of `markCommand_refines_specMarkCompleted`: the number 2 typed on the
two-task list. -/
theorem markCommand_refines_specMarkCompleted_witness :
    (∀ p : TaskObj, p.markAsCompleted = specCompleted p ∧
      (specCompleted p).isTaskCompleted = true) ∧
    mainCase3 twoTasks (typed 3 2)
      = some ((specMarkCompleted twoTasks (typed 3 2).index).1,
          "Enter the index of the task to mark as completed: "
            ++ (specMarkCompleted twoTasks (typed 3 2).index).2) ∧
    mainPass twoTasks { typed 3 2 with choice := 3 }
      = some ((specMarkCompleted twoTasks (typed 3 2).index).1,
          menuText
            ++ ("Enter the index of the task to mark as completed: "
                ++ (specMarkCompleted twoTasks (typed 3 2).index).2)
            ++ "\n") ∧
    mainCase3 twoTasks (typed 3 2)
      = some ({ tasks := [buyMilk, TaskObj.recurring
            { base := { description := "Stretch", dueDate := "", isCompleted := true },
              frequency := 7 }] },
          "Enter the index of the task to mark as completed: Task marked as completed!\n") :=
  markCommand_refines_specMarkCompleted twoTasks (typed 3 2) (by decide) (by decide)

/-! ## Completion along a sequence of calls -/

theorem markAsCompleted_of_completed (p : TaskObj) (h : p.isTaskCompleted = true) :
    p.markAsCompleted = p := by
  cases p with
  | task t =>
    obtain ⟨⟨d, s, c⟩⟩ := t
    simp only [TaskObj.isTaskCompleted, TaskObj.base, TaskBase.isTaskCompleted] at h
    subst h
    rfl
  | recurring t =>
    obtain ⟨⟨d, s, c⟩, f⟩ := t
    simp only [TaskObj.isTaskCompleted, TaskObj.base, TaskBase.isTaskCompleted] at h
    subst h
    rfl

/-- One call: it returns, and an object that stays in the vector is the same
afterwards unless the call is `markTaskAsCompleted` and the object was not
completed, in which case it may have become its completed form. -/
theorem call_step (l : ToDoList) (op : Op) :
    ∃ (r : ToDoList) (out : String), l.call op = some (r, out) ∧
      ∀ (j j1 : Nat) (p : TaskObj), l.tasks[j]? = some p → positionAfter l op j = some j1 →
        ∃ q : TaskObj, r.tasks[j1]? = some q ∧
          (q = p ∨ (p.isTaskCompleted = false ∧ q = p.markAsCompleted ∧ op.isMark = true)) := by
  cases op with
  | addTask task =>
    refine ⟨l.addTask task, "", rfl, ?_⟩
    intro j j1 p hp hj
    simp only [positionAfter, Option.some.injEq] at hj
    subst hj
    refine ⟨p, ?_, Or.inl rfl⟩
    have hlt : j < l.tasks.length := by
      rcases Nat.lt_or_ge j l.tasks.length with h | h
      · exact h
      · rw [List.getElem?_eq_none h] at hp
        cases hp
    show (l.tasks ++ [task])[j]? = some p
    rw [List.getElem?_append_left hlt, hp]
  | displayTasks =>
    refine ⟨l, l.displayTasks, rfl, ?_⟩
    intro j j1 p hp hj
    simp only [positionAfter, Option.some.injEq] at hj
    subst hj
    exact ⟨p, hp, Or.inl rfl⟩
  | markTaskAsCompleted index =>
    cases hv : l.isValidIndex index with
    | false =>
      refine ⟨l, _, markTaskAsCompleted_of_invalid l index hv, ?_⟩
      intro j j1 p hp hj
      simp only [positionAfter, Option.some.injEq] at hj
      subst hj
      exact ⟨p, hp, Or.inl rfl⟩
    | true =>
      obtain ⟨p0, hp0, hm⟩ := markTaskAsCompleted_of_valid l index hv
      refine ⟨_, _, hm, ?_⟩
      intro j j1 p hp hj
      simp only [positionAfter, Option.some.injEq] at hj
      subst hj
      show ∃ q : TaskObj, (l.tasks.set index.toNat p0.markAsCompleted)[j]? = some q ∧ _
      by_cases hjk : index.toNat = j
      · subst hjk
        have hpp : p0 = p := by
          rw [hp0] at hp
          exact Option.some.inj hp
        subst hpp
        have hlt : index.toNat < l.tasks.length := by
          rcases Nat.lt_or_ge index.toNat l.tasks.length with h | h
          · exact h
          · rw [List.getElem?_eq_none h] at hp0
            cases hp0
        refine ⟨p0.markAsCompleted, List.getElem?_set_self hlt, ?_⟩
        cases hc : p0.isTaskCompleted with
        | true => exact Or.inl (markAsCompleted_of_completed p0 hc)
        | false => exact Or.inr ⟨rfl, rfl, rfl⟩
      · exact ⟨p, by rw [List.getElem?_set_ne hjk, hp], Or.inl rfl⟩
  | removeTask index =>
    cases hv : l.isValidIndex index with
    | false =>
      refine ⟨l, _, removeTask_of_invalid l index hv, ?_⟩
      intro j j1 p hp hj
      simp only [positionAfter, hv, Bool.false_eq_true, if_false, Option.some.injEq] at hj
      subst hj
      exact ⟨p, hp, Or.inl rfl⟩
    | true =>
      obtain ⟨k, hk, hs, hlt⟩ := isValidIndex_inRange l index hv
      have ht : index.toNat = k := by omega
      refine ⟨_, _, removeTask_of_valid l index hv, ?_⟩
      intro j j1 p hp hj
      simp only [positionAfter, hv, if_true, hs] at hj
      show ∃ q : TaskObj, (l.tasks.eraseIdx index.toNat)[j1]? = some q ∧ _
      rw [ht]
      by_cases h1 : j < k
      · rw [if_pos h1] at hj
        have hjj := Option.some.inj hj
        subst hjj
        exact ⟨p, by rw [List.getElem?_eraseIdx_of_lt l.tasks k j h1, hp], Or.inl rfl⟩
      · rw [if_neg h1] at hj
        by_cases h2 : j = k
        · rw [if_pos h2] at hj
          cases hj
        · rw [if_neg h2] at hj
          have hjj := Option.some.inj hj
          subst hjj
          refine ⟨p, ?_, Or.inl rfl⟩
          rw [List.getElem?_eraseIdx_of_ge l.tasks k (j - 1) (by omega)]
          have h3 : j - 1 + 1 = j := by omega
          rw [h3, hp]

/-- C11: completion is never reversed. For every list, every sequence of
calls of `addTask`, `displayTasks`, `markTaskAsCompleted` and `removeTask` with
any indices, and every task of the list that is still in the list after the
calls: all the calls return, and the task is then either exactly as it was, or
it was not completed, is now its completed form, and one of the calls was a
`markTaskAsCompleted`. So a completed task is unchanged and still completed. -/
theorem completion_never_reversed (l : ToDoList) (ops : List Op) (j j1 : Nat) (p : TaskObj)
    (hp : l.tasks[j]? = some p) (hj : positionAfterAll l ops j = some j1) :
    ∃ (r : ToDoList) (out : String) (q : TaskObj),
      l.callAll ops = some (r, out) ∧ r.tasks[j1]? = some q ∧
      (q = p ∨ (p.isTaskCompleted = false ∧ q = p.markAsCompleted ∧
        ops.any Op.isMark = true)) ∧
      (p.isTaskCompleted = false ∨ (q = p ∧ q.isTaskCompleted = true)) := by
  induction ops generalizing l j p with
  | nil =>
    simp only [positionAfterAll, Option.some.injEq] at hj
    subst hj
    refine ⟨l, "", p, rfl, hp, Or.inl rfl, ?_⟩
    cases hc : p.isTaskCompleted with
    | false => exact Or.inl rfl
    | true => exact Or.inr ⟨rfl, rfl⟩
  | cons op ops ih =>
    obtain ⟨r1, out1, hcall, hstep⟩ := call_step l op
    simp only [positionAfterAll, hcall] at hj
    cases hpos : positionAfter l op j with
    | none =>
      rw [hpos] at hj
      cases hj
    | some j2 =>
      rw [hpos] at hj
      obtain ⟨q1, hq1, hrel1⟩ := hstep j j2 p hp hpos
      obtain ⟨r, out, q, hall, hq, hrel, hkeep⟩ := ih r1 j2 q1 hq1 hj
      have hcallAll : l.callAll (op :: ops) = some (r, out1 ++ out) := by
        simp only [ToDoList.callAll, hcall, hall]
      have hchange : q = p ∨ (p.isTaskCompleted = false ∧ q = p.markAsCompleted ∧
          (op :: ops).any Op.isMark = true) := by
        rcases hrel1 with h1 | ⟨hc1, h1, hm1⟩
        · subst h1
          rcases hrel with h2 | ⟨hc2, h2, hm2⟩
          · exact Or.inl h2
          · exact Or.inr ⟨hc2, h2, by simp [List.any_cons, hm2]⟩
        · have hdone : q1.isTaskCompleted = true := by
            rw [h1]
            exact markAsCompleted_isTaskCompleted p
          have hq1q : q = q1 := by
            rcases hkeep with h3 | ⟨h3, -⟩
            · rw [hdone] at h3
              cases h3
            · exact h3
          exact Or.inr ⟨hc1, by rw [hq1q, h1], by simp [List.any_cons, hm1]⟩
      refine ⟨r, out1 ++ out, q, hcallAll, hq, hchange, ?_⟩
      cases hc : p.isTaskCompleted with
      | false => exact Or.inl rfl
      | true =>
        rcases hchange with h4 | ⟨h4, -, -⟩
        · exact Or.inr ⟨h4, by rw [h4, hc]⟩
        · rw [hc] at h4
          cases h4

/-- A use of `completion_never_reversed`: the second task of the two-task
list, followed through a completion of the first task, its removal, an
addition and a display. -/
theorem completion_never_reversed_witness :
    ∃ (r : ToDoList) (out : String) (q : TaskObj),
      twoTasks.callAll [Op.markTaskAsCompleted 0, Op.removeTask 0, Op.addTask buyMilk,
        Op.displayTasks] = some (r, out) ∧ r.tasks[0]? = some q ∧
      (q = stretch ∨ (stretch.isTaskCompleted = false ∧ q = stretch.markAsCompleted ∧
        [Op.markTaskAsCompleted 0, Op.removeTask 0, Op.addTask buyMilk,
          Op.displayTasks].any Op.isMark = true)) ∧
      (stretch.isTaskCompleted = false ∨ (q = stretch ∧ q.isTaskCompleted = true)) :=
  completion_never_reversed twoTasks
    [Op.markTaskAsCompleted 0, Op.removeTask 0, Op.addTask buyMilk, Op.displayTasks] 1 0 stretch
    (by decide) (by decide)

/-! ## The text of `displayTasks` line by line -/

theorem digitChar_ne_lineEnd (n : Nat) : Nat.digitChar (n % 10) ≠ '\n' := by
  have h : n % 10 < 10 := Nat.mod_lt _ (by decide)
  generalize n % 10 = m at h
  interval_cases m <;> decide

theorem toDigitsCore_no_lineEnd (fuel n : Nat) (ds : List Char)
    (h : ∀ c ∈ ds, c ≠ '\n') : ∀ c ∈ Nat.toDigitsCore 10 fuel n ds, c ≠ '\n' := by
  induction fuel generalizing n ds with
  | zero => simpa [Nat.toDigitsCore] using h
  | succ fuel ih =>
    have hcons : ∀ c ∈ Nat.digitChar (n % 10) :: ds, c ≠ '\n' := by
      intro c hc
      rcases List.mem_cons.mp hc with h1 | h1
      · rw [h1]
        exact digitChar_ne_lineEnd _
      · exact h c h1
    simp only [Nat.toDigitsCore]
    split_ifs
    · exact hcons
    · exact ih _ _ hcons

theorem toString_no_lineEnd (k : Nat) : ∀ c ∈ (toString k).data, c ≠ '\n' := by
  show ∀ c ∈ (Nat.repr k).data, c ≠ '\n'
  unfold Nat.repr Nat.toDigits
  exact toDigitsCore_no_lineEnd _ _ [] (by simp)

theorem linesOfChars_line (body rest : List Char) (h : ∀ c ∈ body, c ≠ '\n') :
    linesOfChars (body ++ '\n' :: rest) = body :: linesOfChars rest := by
  induction body with
  | nil => simp [linesOfChars]
  | cons c body ih =>
    have hc : c ≠ '\n' := h c (List.mem_cons_self _ _)
    have hb : ∀ d ∈ body, d ≠ '\n' := fun d hd => h d (List.mem_cons_of_mem _ hd)
    simp only [List.cons_append, linesOfChars, if_neg hc, List.append_eq, ih hb]

theorem displayTask_eq_specRender (p : TaskObj) : p.displayTask = specRender p ++ "\n" := by
  cases p with
  | task t =>
    obtain ⟨⟨d, s, c⟩⟩ := t
    cases c <;> simp [TaskObj.displayTask, Task.displayTask, specRender, endl]
  | recurring t =>
    obtain ⟨⟨d, s, c⟩, f⟩ := t
    simp only [TaskObj.displayTask, RecurringTask.displayTask, specRender, endl]
    cases c <;> split_ifs <;> simp [String.append_assoc]

theorem noLineBreak_mem (s : String) (h : noLineBreak s = true) : ∀ c ∈ s.data, c ≠ '\n' := by
  intro c hc
  simp only [noLineBreak, List.all_eq_true, decide_eq_true_eq] at h
  exact h c hc

theorem specRender_no_lineEnd (p : TaskObj) (h : p.printsOneLine = true) :
    ∀ c ∈ (specRender p).data, c ≠ '\n' := by
  cases p with
  | task t =>
    obtain ⟨⟨d, s, c⟩⟩ := t
    simp only [TaskObj.printsOneLine, Bool.and_eq_true] at h
    have hd := noLineBreak_mem d h.1
    have hs := noLineBreak_mem s h.2
    intro x hx
    cases c <;>
      simp only [specRender, String.data_append, List.mem_append, Bool.false_eq_true,
        if_false, if_true] at hx <;>
      rcases hx with ((((hx | hx) | hx) | hx) | hx) <;>
      first
        | exact hd x hx
        | exact hs x hx
        | (revert x; decide)
  | recurring t =>
    obtain ⟨⟨d, s, c⟩, f⟩ := t
    simp only [TaskObj.printsOneLine] at h
    have hd := noLineBreak_mem d h
    intro x hx
    simp only [specRender, String.data_append, List.mem_append] at hx
    rcases hx with ((((hx | hx) | hx) | hx) | hx)
    · revert x
      decide
    · exact hd x hx
    · cases c <;> simp only [Bool.false_eq_true, if_false, if_true] at hx <;>
        (revert x; decide)
    · revert x
      decide
    · split_ifs at hx <;> (revert x; decide)

theorem textLines_append_line (body rest : String) (h : ∀ c ∈ body.data, c ≠ '\n') :
    textLines (body ++ "\n" ++ rest) = body :: textLines rest := by
  have hdata : (body ++ "\n" ++ rest).data = body.data ++ '\n' :: rest.data := by
    simp [String.data_append]
  simp only [textLines, hdata, linesOfChars_line body.data rest.data h, List.map_cons]

theorem textLines_displayLoop (ts : List TaskObj) (i : Nat)
    (h : ts.all TaskObj.printsOneLine = true) :
    textLines (displayLoop i ts)
      = (ts.enumFrom (i + 1)).map (fun kp => "[" ++ toString kp.1 ++ "] " ++ specRender kp.2) := by
  induction ts generalizing i with
  | nil => rfl
  | cons t rest ih =>
    simp only [List.all_cons, Bool.and_eq_true] at h
    have hbody : ∀ c ∈ ("[" ++ toString (i + 1) ++ "] " ++ specRender t).data, c ≠ '\n' := by
      intro c hc
      simp only [String.data_append, List.mem_append] at hc
      rcases hc with ((hc | hc) | hc) | hc
      · revert c
        decide
      · exact toString_no_lineEnd (i + 1) c hc
      · revert c
        decide
      · exact specRender_no_lineEnd t h.1 c hc
    have htext : displayLoop i (t :: rest)
        = ("[" ++ toString (i + 1) ++ "] " ++ specRender t) ++ "\n" ++ displayLoop (i + 1) rest := by
      simp only [displayLoop, displayTask_eq_specRender, String.append_assoc]
    rw [htext, textLines_append_line _ _ hbody, ih (i + 1) h.2, List.enumFrom_cons, List.map_cons]

theorem textLines_displayTasks_cons (t : TaskObj) (ts : List TaskObj)
    (h : (t :: ts).all TaskObj.printsOneLine = true) :
    textLines (ToDoList.mk (t :: ts)).displayTasks
      = ((t :: ts).enumFrom 1).map (fun kp => "[" ++ toString kp.1 ++ "] " ++ specRender kp.2) := by
  simp only [ToDoList.displayTasks, List.isEmpty_cons]
  exact textLines_displayLoop (t :: ts) 0 h

theorem getElem?_map_enumFrom_one (ts : List TaskObj) (k : Nat) :
    (((ts.enumFrom 1).map (fun kp => "[" ++ toString kp.1 ++ "] " ++ specRender kp.2))[k]?)
      = (ts[k]?).map (fun p => "[" ++ toString (k + 1) ++ "] " ++ specRender p) := by
  simp only [List.getElem?_map, List.getElem?_enumFrom, Option.map_map]
  cases ts[k]? with
  | none => rfl
  | some p => simp [Nat.add_comm]

/-- C5, as the code has it: starting from the empty list, after `addTask` of
tasks t1..tn in that order (n >= 1) whose description, and due date for a dated
task, hold no line break, the list holds exactly t1..tn, each `addTask` appends
its task and so makes the list one longer, and the text `displayTasks` writes
has exactly n lines, the k-th being "[k] " followed by the rendering of tk,
which is what `displayTask` writes before its line end. For the two tasks of
the round-trip scenario the text is the two lines the specification gives. -/
theorem addTask_then_displayTasks_lines (t : TaskObj) (ts : List TaskObj)
    (h : (t :: ts).all TaskObj.printsOneLine = true) :
    ((t :: ts).foldl ToDoList.addTask ToDoList.new).tasks = t :: ts ∧
    (∀ (l : ToDoList) (p : TaskObj),
      (l.addTask p).tasks = l.tasks ++ [p] ∧
      (l.addTask p).tasks.length = l.tasks.length + 1) ∧
    (∀ p : TaskObj, p.displayTask = specRender p ++ "\n") ∧
    textLines ((t :: ts).foldl ToDoList.addTask ToDoList.new).displayTasks
      = ((t :: ts).enumFrom 1).map (fun kp => "[" ++ toString kp.1 ++ "] " ++ specRender kp.2) ∧
    (textLines ((t :: ts).foldl ToDoList.addTask ToDoList.new).displayTasks).length
      = (t :: ts).length ∧
    (∀ k : Nat, (textLines ((t :: ts).foldl ToDoList.addTask ToDoList.new).displayTasks)[k]?
      = ((t :: ts)[k]?).map (fun p => "[" ++ toString (k + 1) ++ "] " ++ specRender p)) ∧
    ((ToDoList.new.addTask buyMilk).addTask stretch).displayTasks
      = "[1] Description: Buy milk, Due Date: 2024-01-01 (Not Completed)\n"
          ++ "[2] Recurring Task: Description: Stretch (Not Completed), Frequency: Weekly\n" := by
  have hl : (t :: ts).foldl ToDoList.addTask ToDoList.new = ToDoList.mk (t :: ts) := by
    have h1 := foldl_addTask_tasks (t :: ts) ToDoList.new
    generalize (t :: ts).foldl ToDoList.addTask ToDoList.new = l at h1
    obtain ⟨x⟩ := l
    simpa [ToDoList.new] using h1
  have hrender : ∀ p : TaskObj, p.displayTask = specRender p ++ "\n" := by
    intro p
    cases p with
    | task x =>
      obtain ⟨⟨d, s, c⟩⟩ := x
      cases c <;> simp [TaskObj.displayTask, Task.displayTask, specRender, endl]
    | recurring x =>
      obtain ⟨⟨d, s, c⟩, f⟩ := x
      simp only [TaskObj.displayTask, RecurringTask.displayTask, specRender, endl]
      cases c <;> split_ifs <;> simp [String.append_assoc]
  have hlines := textLines_displayTasks_cons t ts h
  rw [hl]
  refine ⟨rfl, ?_, hrender, hlines, ?_, ?_, by decide⟩
  · intro l p
    simp [ToDoList.addTask]
  · rw [hlines, List.length_map, List.enumFrom_length]
  · intro k
    rw [hlines]
    exact getElem?_map_enumFrom_one (t :: ts) k

/-- A use of `addTask_then_displayTasks_lines`: the two tasks of the round-trip
scenario. -/
theorem addTask_then_displayTasks_lines_witness :
    textLines ([buyMilk, stretch].foldl ToDoList.addTask ToDoList.new).displayTasks
      = ["[1] Description: Buy milk, Due Date: 2024-01-01 (Not Completed)",
         "[2] Recurring Task: Description: Stretch (Not Completed), Frequency: Weekly"] ∧
    (textLines ([buyMilk, stretch].foldl ToDoList.addTask ToDoList.new).displayTasks).length
      = [buyMilk, stretch].length :=
  ⟨(addTask_then_displayTasks_lines buyMilk [stretch] (by decide)).2.2.2.1.trans (by decide),
   (addTask_then_displayTasks_lines buyMilk [stretch] (by decide)).2.2.2.2.1⟩

/-- C5 as stated fails for a task whose description holds a line break: after
the one `addTask` the text `displayTasks` writes has two lines, not one, and
its second line does not start with a position in brackets. -/
theorem addTask_then_displayTasks_counterexample :
    ([twoLineTask].foldl ToDoList.addTask ToDoList.new).tasks = [twoLineTask] ∧
    ([twoLineTask].foldl ToDoList.addTask ToDoList.new).displayTasks
      = "[1] Description: Buy milk\nand bread, Due Date: 2024-01-01 (Not Completed)\n" ∧
    textLines ([twoLineTask].foldl ToDoList.addTask ToDoList.new).displayTasks
      = ["[1] Description: Buy milk", "and bread, Due Date: 2024-01-01 (Not Completed)"] ∧
    (textLines ([twoLineTask].foldl ToDoList.addTask ToDoList.new).displayTasks).length
      ≠ [twoLineTask].length := by
  decide

/-- C9, as the code has it: on the empty list `displayTasks` writes exactly one
line, "No tasks in the ToDo list."; on every list that is not empty and whose
tasks hold no line break in their description, and due date for a dated task,
it writes exactly one line for each task, the k-th being "[k] " followed by
the rendering of the k-th task, and none of the lines is the line of the empty
list, as on the two-task list of the round-trip scenario. The member is
`const`: it returns the text only and the list is not changed. -/
theorem displayTasks_empty_or_one_line_each (t : TaskObj) (ts : List TaskObj)
    (h : (t :: ts).all TaskObj.printsOneLine = true) :
    (ToDoList.mk []).displayTasks = "No tasks in the ToDo list.\n" ∧
    textLines (ToDoList.mk []).displayTasks = ["No tasks in the ToDo list."] ∧
    (∀ p : TaskObj, p.displayTask = specRender p ++ "\n") ∧
    textLines (ToDoList.mk (t :: ts)).displayTasks
      = ((t :: ts).enumFrom 1).map (fun kp => "[" ++ toString kp.1 ++ "] " ++ specRender kp.2) ∧
    (textLines (ToDoList.mk (t :: ts)).displayTasks).length = (t :: ts).length ∧
    "No tasks in the ToDo list." ∉ textLines (ToDoList.mk (t :: ts)).displayTasks ∧
    textLines (ToDoList.mk [buyMilk, stretch]).displayTasks
      = ["[1] Description: Buy milk, Due Date: 2024-01-01 (Not Completed)",
         "[2] Recurring Task: Description: Stretch (Not Completed), Frequency: Weekly"] := by
  have hrender : ∀ p : TaskObj, p.displayTask = specRender p ++ "\n" := by
    intro p
    cases p with
    | task x =>
      obtain ⟨⟨d, s, c⟩⟩ := x
      cases c <;> simp [TaskObj.displayTask, Task.displayTask, specRender, endl]
    | recurring x =>
      obtain ⟨⟨d, s, c⟩, f⟩ := x
      simp only [TaskObj.displayTask, RecurringTask.displayTask, specRender, endl]
      cases c <;> split_ifs <;> simp [String.append_assoc]
  have hlines := textLines_displayTasks_cons t ts h
  refine ⟨by decide, by decide, hrender, hlines, ?_, ?_, by decide⟩
  · rw [hlines, List.length_map, List.enumFrom_length]
  · rw [hlines]
    intro hmem
    simp only [List.mem_map] at hmem
    obtain ⟨kp, -, hkp⟩ := hmem
    have hd := congrArg String.data hkp
    simp [String.data_append] at hd

/-- A use of `displayTasks_empty_or_one_line_each`: the two-task list of the
round-trip scenario. -/
theorem displayTasks_empty_or_one_line_each_witness :
    (textLines (ToDoList.mk [buyMilk, stretch]).displayTasks).length
      = [buyMilk, stretch].length ∧
    "No tasks in the ToDo list." ∉ textLines (ToDoList.mk [buyMilk, stretch]).displayTasks :=
  ⟨(displayTasks_empty_or_one_line_each buyMilk [stretch] (by decide)).2.2.2.2.1,
   (displayTasks_empty_or_one_line_each buyMilk [stretch] (by decide)).2.2.2.2.2.1⟩

/-- C9 as stated fails on the one-task list whose task holds the text of the
message between two line breaks of its description: `displayTasks` writes
three lines for the one task, and the second is exactly the line of the empty
list. -/
theorem displayTasks_one_line_each_counterexample :
    (ToDoList.mk [messageTask]).tasks.length = 1 ∧
    textLines (ToDoList.mk [messageTask]).displayTasks
      = ["[1] Description: Plan", "No tasks in the ToDo list.",
         "Call, Due Date: 2024-01-01 (Not Completed)"] ∧
    (textLines (ToDoList.mk [messageTask]).displayTasks).length = 3 ∧
    "No tasks in the ToDo list." ∈ textLines (ToDoList.mk [messageTask]).displayTasks := by
  decide

end TaskManager
